import Mathlib

/-!
Verification of the NMT_GEN training orchestration code.

The development shallowly embeds the two source files:
 * `src/train/trainer.py` — `TrainerBase.train` (epoch loop with plateau
   scheduling, best-checkpoint saving and early stopping) and the
   `Trainer.__init__` tokenizer check;
 * `src/module/train.py` — the adversarial `Trainer`: its constructor and
   epoch passes are embedded together with the errors they raise (`BCELoss`
   keyword `TypeError`, the five-argument `get_losses` call, the unset
   `optimizer`/`model` attributes, the unbound `gen_loss` name), the
   return value of `get_losses` (line 142), and the aggregation arithmetic of
   `train_epoch`/`valid_epoch` (lines 156-178/186-200).

Per-epoch validation losses are modelled as rational numbers supplied by a
function `Nat → ℚ` (the dataloader/model pair is an external collaborator:
the loop only consumes the scalar losses the epoch passes return).  Python's
`float('inf')` initial values are modelled by `Option ℚ` with `none` standing
for positive infinity.
-/

/-- Python comparison `prev > v` where `prev` may be `float('inf')` (`none`). -/
def ltInf (prev : Option ℚ) (v : ℚ) : Bool :=
  match prev with
  | none => true
  | some p => decide (v < p)

/-- Python comparison `best >= v` where `best` may be `float('inf')` (`none`):
the save-condition text of src/module/train.py lines 106 and 111. -/
def leInf (best : Option ℚ) (v : ℚ) : Bool :=
  match best with
  | none => true
  | some b => decide (v ≤ b)

/-- State of the `TrainerBase.train` loop (src/train/trainer.py, lines 70-115).
`records` holds, per completed epoch, the epoch index and the validation loss
(the other record fields — train loss, perplexities, lr, wall time — play no
role in any claim and are orthogonal to the control flow).  `schedCalls` is
the sequence of arguments passed to `self.scheduler.step`; `saves` the list of
checkpoint writes `(epoch, val_loss)`; `best`, `prev` model `best_loss`,
`prev_loss`; `patience` the countdown; `stopped` whether `break` executed. -/
structure TBState where
  records : List (Nat × ℚ)
  schedCalls : List ℚ
  saves : List (Nat × ℚ)
  best : Option ℚ
  prev : Option ℚ
  patience : Int
  stopped : Bool
deriving DecidableEq

/-- Initial state of `TrainerBase.train` (lines 71-73):
`records = []`, `prev_loss = best_loss = inf`, `patience = self.patience`. -/
def initTB (p0 : Int) : TBState :=
  { records := [], schedCalls := [], saves := [],
    best := none, prev := none, patience := p0, stopped := false }

/-- One iteration of the epoch loop of `TrainerBase.train`
(src/train/trainer.py, lines 75-110), for epoch `e` with validation loss `v`:
append the epoch record (line 85), call `scheduler.step(val_loss)` (line 89),
save the checkpoint when `best_loss > val_loss` (lines 92-97), then the early
stopping block (lines 100-110): reset `patience` on `prev_loss > val_loss`,
otherwise decrement and `break` when it hits zero (`if not patience`), and
finally `prev_loss = val_loss` (not reached after the `break`). -/
def epochStep (es : Bool) (p0 : Int) (e : Nat) (v : ℚ) (s : TBState) : TBState :=
  let s1 : TBState :=
    { s with records := s.records ++ [(e, v)], schedCalls := s.schedCalls ++ [v] }
  let s2 : TBState :=
    if ltInf s1.best v then
      { s1 with best := some v, saves := s1.saves ++ [(e, v)] }
    else s1
  if es then
    if ltInf s2.prev v then
      { s2 with patience := p0, prev := some v }
    else
      let p := s2.patience - 1
      if p = 0 then
        { s2 with patience := p, stopped := true }
      else
        { s2 with patience := p, prev := some v }
  else s2

/-- The epoch loop of `TrainerBase.train`: run `k` further epochs starting at
epoch index `e`, stopping as soon as the `break` fired. -/
def runEpochs (es : Bool) (p0 : Int) (vl : Nat → ℚ) : Nat → Nat → TBState → TBState
  | 0, _, s => s
  | k + 1, e, s =>
    let s' := epochStep es p0 e (vl e) s
    if s'.stopped then s' else runEpochs es p0 vl k (e + 1) s'

/-- `TrainerBase.train` (src/train/trainer.py lines 70-115): `n` is
`config.n_epochs`, `es` is `config.early_stop`, `p0` is `config.patience`,
`vl e` the validation loss that epoch `e`'s `valid_epoch()` reports. -/
def TrainerBase.train (es : Bool) (p0 : Int) (n : Nat) (vl : Nat → ℚ) : TBState :=
  runEpochs es p0 vl n 1 (initTB p0)

/-! ### Claim-side (spec-side) descriptions of the loop -/

/-- Spec-side notion: epoch `e` is a strict improvement of the validation loss
over the previous epoch (the first epoch always improves on `inf`). -/
def improves (vl : Nat → ℚ) (e : Nat) : Bool :=
  if e ≤ 1 then true else decide (vl e < vl (e - 1))

/-- Spec-side early-stop countdown after epoch `e`: starts at the configured
patience, resets to it on any strict improvement, decrements otherwise. -/
def countdown (p0 : Int) (vl : Nat → ℚ) : Nat → Int
  | 0 => p0
  | e + 1 => if improves vl (e + 1) then p0 else countdown p0 vl e - 1

/-- Spec-side halting condition: the countdown reaches zero by the decrement
performed at a non-improving epoch `e` (and early stopping is enabled). -/
def haltsAt (es : Bool) (p0 : Int) (vl : Nat → ℚ) (e : Nat) : Bool :=
  es && !improves vl e && decide (countdown p0 vl e = 0)

/-- Spec-side run of the epoch loop: over `k` epochs starting at epoch `e`,
return how many epochs execute (the halting epoch included) and whether the
early stop fired. -/
def specLoop (es : Bool) (p0 : Int) (vl : Nat → ℚ) : Nat → Nat → Nat × Bool
  | 0, _ => (0, false)
  | k + 1, e =>
    if haltsAt es p0 vl e then (1, true)
    else
      let r := specLoop es p0 vl k (e + 1)
      (r.1 + 1, r.2)

/-- The expected history after `n` completed epochs: one record per epoch,
epoch fields `1, …, n` in order, carrying that epoch's validation loss. -/
def epochRecords (vl : Nat → ℚ) (n : Nat) : List (Nat × ℚ) :=
  (List.range n).map (fun i => (i + 1, vl (i + 1)))

/-- Spec-side "lowest validation loss observed so far" after `e` epochs
(`none` before the first epoch). -/
def minUpTo (vl : Nat → ℚ) : Nat → Option ℚ
  | 0 => none
  | e + 1 =>
    match minUpTo vl e with
    | none => some (vl (e + 1))
    | some m => some (min m (vl (e + 1)))

/-- Spec-side checkpoint log under the strict-improvement policy: a save at
epoch `e` exactly when `vl e` is strictly below the lowest loss seen before. -/
def strictSaves (vl : Nat → ℚ) : Nat → List (Nat × ℚ)
  | 0 => []
  | e + 1 =>
    strictSaves vl e ++
      (if ltInf (minUpTo vl e) (vl (e + 1)) then [(e + 1, vl (e + 1))] else [])

/-! ### Characterization of one epoch step -/

theorem epochStep_eq (es : Bool) (p0 : Int) (e : Nat) (v : ℚ) (s : TBState) :
    epochStep es p0 e v s =
      { records := s.records ++ [(e, v)],
        schedCalls := s.schedCalls ++ [v],
        saves := s.saves ++ (if ltInf s.best v then [(e, v)] else []),
        best := if ltInf s.best v then some v else s.best,
        prev := if es then
                  (if ltInf s.prev v then some v
                   else if s.patience - 1 = 0 then s.prev else some v)
                else s.prev,
        patience := if es then
                      (if ltInf s.prev v then p0 else s.patience - 1)
                    else s.patience,
        stopped := s.stopped ||
          (es && !ltInf s.prev v && decide (s.patience - 1 = 0)) } := by
  by_cases h1 : ltInf s.best v
  · by_cases h2 : es
    · by_cases h3 : ltInf s.prev v
      · simp [epochStep, h1, h2, h3]
      · by_cases h4 : s.patience - 1 = 0
        · simp [epochStep, h1, h2, h3, h4]
        · simp [epochStep, h1, h2, h3, h4]
    · simp [epochStep, h1, h2]
  · by_cases h2 : es
    · by_cases h3 : ltInf s.prev v
      · simp [epochStep, h1, h2, h3]
      · by_cases h4 : s.patience - 1 = 0
        · simp [epochStep, h1, h2, h3, h4]
        · simp [epochStep, h1, h2, h3, h4]
    · simp [epochStep, h1, h2]

theorem runEpochs_succ (es : Bool) (p0 : Int) (vl : Nat → ℚ) (k e : Nat)
    (s : TBState) :
    runEpochs es p0 vl (k + 1) e s =
      if (epochStep es p0 e (vl e) s).stopped then epochStep es p0 e (vl e) s
      else runEpochs es p0 vl k (e + 1) (epochStep es p0 e (vl e) s) := rfl

theorem specLoop_succ (es : Bool) (p0 : Int) (vl : Nat → ℚ) (k e : Nat) :
    specLoop es p0 vl (k + 1) e =
      if haltsAt es p0 vl e then (1, true)
      else ((specLoop es p0 vl k (e + 1)).1 + 1, (specLoop es p0 vl k (e + 1)).2) :=
  rfl

theorem epochRecords_succ (vl : Nat → ℚ) (m : Nat) :
    epochRecords vl (m + 1) = epochRecords vl m ++ [(m + 1, vl (m + 1))] := by
  simp [epochRecords, List.range_succ]

theorem minUpTo_succ (vl : Nat → ℚ) (m : Nat) :
    minUpTo vl (m + 1) =
      if ltInf (minUpTo vl m) (vl (m + 1)) then some (vl (m + 1))
      else minUpTo vl m := by
  cases h : minUpTo vl m with
  | none => simp [minUpTo, h, ltInf]
  | some q =>
      by_cases hlt : vl (m + 1) < q
      · simp [minUpTo, h, ltInf, hlt, min_eq_right (le_of_lt hlt)]
      · simp [minUpTo, h, ltInf, hlt, min_eq_left (not_lt.mp hlt)]

theorem strictSaves_succ (vl : Nat → ℚ) (m : Nat) :
    strictSaves vl (m + 1) =
      strictSaves vl m ++
        (if ltInf (minUpTo vl m) (vl (m + 1)) then [(m + 1, vl (m + 1))] else []) :=
  rfl

/-- Master characterization of the `TrainerBase.train` epoch loop: starting
after `m` completed epochs in a state satisfying the loop invariant, running
`k` more epochs produces exactly the history, scheduler-call list, checkpoint
log, running best and stop flag predicted by the spec-side functions. -/
theorem runEpochs_spec (es : Bool) (p0 : Int) (vl : Nat → ℚ) :
    ∀ (k m : Nat) (s : TBState),
      s.stopped = false →
      s.prev = (if es = true ∧ 1 ≤ m then some (vl m) else none) →
      s.patience = (if es = true then countdown p0 vl m else p0) →
      s.best = minUpTo vl m →
      s.records = epochRecords vl m →
      s.schedCalls = (epochRecords vl m).map Prod.snd →
      s.saves = strictSaves vl m →
      (runEpochs es p0 vl k (m + 1) s).records
          = epochRecords vl (m + (specLoop es p0 vl k (m + 1)).1) ∧
      (runEpochs es p0 vl k (m + 1) s).schedCalls
          = (epochRecords vl (m + (specLoop es p0 vl k (m + 1)).1)).map Prod.snd ∧
      (runEpochs es p0 vl k (m + 1) s).saves
          = strictSaves vl (m + (specLoop es p0 vl k (m + 1)).1) ∧
      (runEpochs es p0 vl k (m + 1) s).best
          = minUpTo vl (m + (specLoop es p0 vl k (m + 1)).1) ∧
      (runEpochs es p0 vl k (m + 1) s).stopped = (specLoop es p0 vl k (m + 1)).2 := by
  intro k
  induction k with
  | zero =>
      intro m s hstop hprev hpat hbest hrec hsched hsaves
      simp [runEpochs, specLoop, hstop, hrec, hsched, hsaves, hbest]
  | succ k ih =>
      intro m s hstop hprev hpat hbest hrec hsched hsaves
      have himp : es = true → ltInf s.prev (vl (m + 1)) = improves vl (m + 1) := by
        intro hes
        cases m with
        | zero => simp [hprev, hes, ltInf, improves]
        | succ m' =>
            have : (1 : Nat) ≤ m' + 1 := Nat.succ_le_succ (Nat.zero_le m')
            simp [hprev, hes, this, ltInf, improves]
      have hcond :
          (es && !ltInf s.prev (vl (m + 1)) && decide (s.patience - 1 = 0))
            = haltsAt es p0 vl (m + 1) := by
        cases hes : es with
        | false => simp [haltsAt, hes]
        | true =>
            rw [himp hes]
            cases himpv : improves vl (m + 1) with
            | true => simp [haltsAt, himpv]
            | false =>
                have hcd : countdown p0 vl (m + 1) = countdown p0 vl m - 1 := by
                  simp [countdown, himpv]
                simp [haltsAt, himpv, hcd, hpat, hes]
      have hstopEq : (epochStep es p0 (m + 1) (vl (m + 1)) s).stopped
          = haltsAt es p0 vl (m + 1) := by
        rw [epochStep_eq]
        simp [hstop, hcond]
      rw [runEpochs_succ, specLoop_succ]
      cases hhalt : haltsAt es p0 vl (m + 1) with
      | true =>
          rw [hstopEq, hhalt]
          simp only [if_true]
          refine ⟨?_, ?_, ?_, ?_, ?_⟩
          · rw [epochStep_eq]
            simp [hrec, epochRecords_succ]
          · rw [epochStep_eq]
            simp [hsched, epochRecords_succ]
          · rw [epochStep_eq]
            simp [hsaves, hbest, strictSaves_succ]
          · rw [epochStep_eq]
            simp [hbest, minUpTo_succ]
          · rw [hstopEq, hhalt]
      | false =>
          rw [hstopEq, hhalt]
          simp only [Bool.false_eq_true, if_false]
          have h1m : (1 : Nat) ≤ m + 1 := Nat.succ_le_succ (Nat.zero_le m)
          have hprev' :
              (if es = true ∧ 1 ≤ m + 1 then some (vl (m + 1)) else none) =
                (if es = true then
                    (if ltInf s.prev (vl (m + 1)) then some (vl (m + 1))
                     else if s.patience - 1 = 0 then s.prev else some (vl (m + 1)))
                  else s.prev) := by
            cases hes : es with
            | false =>
                simp only [Bool.false_eq_true, false_and, if_false]
                rw [hprev]
                simp [hes]
            | true =>
                simp only [hes, true_and, h1m, if_true]
                cases hlt : ltInf s.prev (vl (m + 1)) with
                | true => simp
                | false =>
                    have himpv : improves vl (m + 1) = false := by
                      rw [← himp hes, hlt]
                    have hne : ¬(s.patience - 1 = 0) := by
                      intro habs
                      have hcd : countdown p0 vl (m + 1) = countdown p0 vl m - 1 := by
                        simp [countdown, himpv]
                      rw [hpat, hes] at habs
                      simp only [if_true] at habs
                      simp [haltsAt, hes, himpv, hcd, habs] at hhalt
                    simp [hne]
          have hpat' :
              (if es = true then countdown p0 vl (m + 1) else p0) =
                (if es = true then
                    (if ltInf s.prev (vl (m + 1)) then p0 else s.patience - 1)
                  else s.patience) := by
            cases hes : es with
            | false => rw [hpat]; simp [hes]
            | true =>
                simp only [hes, if_true]
                cases hlt : ltInf s.prev (vl (m + 1)) with
                | true =>
                    have himpv : improves vl (m + 1) = true := by
                      rw [← himp hes, hlt]
                    simp [countdown, himpv]
                | false =>
                    have himpv : improves vl (m + 1) = false := by
                      rw [← himp hes, hlt]
                    rw [hpat]
                    simp [countdown, himpv, hes]
          have hrun := ih (m + 1)
            (epochStep es p0 (m + 1) (vl (m + 1)) s)
            (by rw [hstopEq, hhalt])
            (by rw [epochStep_eq]; exact hprev'.symm)
            (by rw [epochStep_eq]; exact hpat'.symm)
            (by rw [epochStep_eq]; simp [hbest, minUpTo_succ])
            (by rw [epochStep_eq]; simp [hrec, epochRecords_succ])
            (by rw [epochStep_eq]; simp [hsched, epochRecords_succ])
            (by rw [epochStep_eq]; simp [hsaves, hbest, strictSaves_succ])
          have harith : m + ((specLoop es p0 vl k (m + 1 + 1)).1 + 1)
              = m + 1 + (specLoop es p0 vl k (m + 1 + 1)).1 := by omega
          simpa [harith] using hrun

/-- Characterization of a full `TrainerBase.train` run in terms of the
spec-side loop, countdown, running-minimum and checkpoint-log functions. -/
theorem train_spec (es : Bool) (p0 : Int) (n : Nat) (vl : Nat → ℚ) :
    (TrainerBase.train es p0 n vl).records
        = epochRecords vl (specLoop es p0 vl n 1).1 ∧
    (TrainerBase.train es p0 n vl).schedCalls
        = (epochRecords vl (specLoop es p0 vl n 1).1).map Prod.snd ∧
    (TrainerBase.train es p0 n vl).saves
        = strictSaves vl (specLoop es p0 vl n 1).1 ∧
    (TrainerBase.train es p0 n vl).best
        = minUpTo vl (specLoop es p0 vl n 1).1 ∧
    (TrainerBase.train es p0 n vl).stopped = (specLoop es p0 vl n 1).2 := by
  have h := runEpochs_spec es p0 vl n 0 (initTB p0)
    rfl (by simp [initTB]) (by cases es <;> simp [initTB, countdown])
    (by simp [initTB, minUpTo]) (by simp [initTB, epochRecords])
    (by simp [initTB, epochRecords]) (by simp [initTB, strictSaves])
  simpa [TrainerBase.train] using h

theorem specLoop_fst_le (es : Bool) (p0 : Int) (vl : Nat → ℚ) :
    ∀ k e, (specLoop es p0 vl k e).1 ≤ k := by
  intro k
  induction k with
  | zero => intro e; simp [specLoop]
  | succ k ih =>
      intro e
      rw [specLoop_succ]
      by_cases h : haltsAt es p0 vl e
      · simp [h]
      · simp only [h, Bool.false_eq_true, if_false]
        exact Nat.succ_le_succ (ih (e + 1))

theorem specLoop_not_halted (es : Bool) (p0 : Int) (vl : Nat → ℚ) :
    ∀ k e, (specLoop es p0 vl k e).2 = false → (specLoop es p0 vl k e).1 = k := by
  intro k
  induction k with
  | zero => intro e _; simp [specLoop]
  | succ k ih =>
      intro e h
      rw [specLoop_succ] at h ⊢
      by_cases hh : haltsAt es p0 vl e
      · simp [hh] at h
      · simp only [hh, Bool.false_eq_true, if_false] at h ⊢
        rw [ih (e + 1) h]

theorem specLoop_es_false (p0 : Int) (vl : Nat → ℚ) :
    ∀ k e, specLoop false p0 vl k e = (k, false) := by
  intro k
  induction k with
  | zero => intro e; simp [specLoop]
  | succ k ih =>
      intro e
      rw [specLoop_succ]
      simp [haltsAt, ih (e + 1)]

theorem epochRecords_length (vl : Nat → ℚ) (n : Nat) :
    (epochRecords vl n).length = n := by
  simp [epochRecords]

theorem epochRecords_map_fst (vl : Nat → ℚ) (n : Nat) :
    (epochRecords vl n).map Prod.fst = (List.range n).map (fun i => i + 1) := by
  simp [epochRecords]

/-- The C1/C8 scenario validation losses `1.0, 1.1, 1.2, 1.3` (as exact
rationals `1, 11/10, 12/10, 13/10`) for epochs `1..4`. -/
def vlScenario : Nat → ℚ := fun e =>
  if e = 1 then 1
  else if e = 2 then mkRat 11 10
  else if e = 3 then mkRat 12 10
  else mkRat 13 10

/-- C1: with early stopping enabled, the run refines the spec-side early-stop
mechanism: the countdown starts at the configured patience, resets to patience
on a strict improvement, decrements otherwise, and the loop halts exactly when
a decrement brings it to zero (`specLoop`/`countdown`/`haltsAt`); the history
holds exactly one record per epoch run, the stopping epoch included.  In the
scenario `patience = 2`, losses `1.0, 1.1, 1.2, 1.3` over `4` epochs, training
halts after epoch `3` and the history has `3` records. -/
theorem c1_early_stop_countdown_history (p0 : Int) (n : Nat) (vl : Nat → ℚ) :
    ((TrainerBase.train true p0 n vl).records
        = epochRecords vl (specLoop true p0 vl n 1).1 ∧
     (TrainerBase.train true p0 n vl).records.length = (specLoop true p0 vl n 1).1 ∧
     (TrainerBase.train true p0 n vl).stopped = (specLoop true p0 vl n 1).2) ∧
    specLoop true 2 vlScenario 4 1 = (3, true) ∧
    (TrainerBase.train true 2 4 vlScenario).records.length = 3 ∧
    (TrainerBase.train true 2 4 vlScenario).stopped = true := by
  refine ⟨⟨(train_spec true p0 n vl).1, ?_, (train_spec true p0 n vl).2.2.2.2⟩,
    by decide, by decide, by decide⟩
  rw [(train_spec true p0 n vl).1, epochRecords_length]

/-- C8, counterexample to the claim as stated: with `n_epochs = 3`,
`patience = 2`, `early_stop = True` and strictly worsening validation losses
`1, 2, 3`, the early stop fires at epoch `3` (the `break` executes, `stopped`)
yet the history has exactly `3 = n_epochs` records — so "history is strictly
shorter than n_epochs iff early stopping fired" is false. -/
theorem c8_counterexample_stop_at_final_epoch :
    ¬(((TrainerBase.train true 2 3 (fun e => (e : ℚ))).records.length < 3) ↔
       (TrainerBase.train true 2 3 (fun e => (e : ℚ))).stopped = true) := by
  decide

/-- C8, amended: the history has exactly one record per completed epoch with
epoch fields `1, …, length` in order, its length is at most `n_epochs`, a
length strictly shorter than `n_epochs` implies early stopping fired, and with
early stopping disabled the length is exactly `n_epochs` (the converse of the
"shorter" direction fails only when the stop fires at epoch `n_epochs`
itself, see the counterexample).  In particular with `n_epochs = 3` and early
stopping disabled the history has exactly `3` records with epoch fields
`1, 2, 3`. -/
theorem c8_history_length (es : Bool) (p0 : Int) (n : Nat) (vl : Nat → ℚ) :
    ((TrainerBase.train es p0 n vl).records
        = epochRecords vl ((TrainerBase.train es p0 n vl).records.length) ∧
     (TrainerBase.train es p0 n vl).records.length ≤ n ∧
     ((TrainerBase.train es p0 n vl).records.length < n →
        (TrainerBase.train es p0 n vl).stopped = true) ∧
     (es = false → (TrainerBase.train es p0 n vl).records.length = n)) ∧
    (∀ (q : Int) (vl' : Nat → ℚ),
       (TrainerBase.train false q 3 vl').records.length = 3 ∧
       (TrainerBase.train false q 3 vl').records.map Prod.fst = [1, 2, 3]) := by
  have hr := (train_spec es p0 n vl).1
  have hs := (train_spec es p0 n vl).2.2.2.2
  have hlen : (TrainerBase.train es p0 n vl).records.length
      = (specLoop es p0 vl n 1).1 := by
    rw [hr, epochRecords_length]
  constructor
  · refine ⟨by rw [hlen, hr], ?_, ?_, ?_⟩
    · rw [hlen]
      exact specLoop_fst_le es p0 vl n 1
    · intro hlt
      by_contra hst
      have hst' : (TrainerBase.train es p0 n vl).stopped = false := by
        cases h : (TrainerBase.train es p0 n vl).stopped with
        | false => rfl
        | true => exact absurd h hst
      rw [hs] at hst'
      have := specLoop_not_halted es p0 vl n 1 hst'
      rw [hlen, this] at hlt
      exact lt_irrefl n hlt
    · intro hes
      subst hes
      rw [hlen, specLoop_es_false]
  · intro q vl'
    have hr' := (train_spec false q 3 vl').1
    rw [specLoop_es_false] at hr'
    constructor
    · rw [hr', epochRecords_length]
    · rw [hr', epochRecords_map_fst]
      decide

theorem countdown_nonpos (vl : Nat → ℚ) : ∀ e, countdown 0 vl e ≤ 0 := by
  intro e
  induction e with
  | zero => simp [countdown]
  | succ e ih =>
      rw [countdown]
      by_cases h : improves vl (e + 1)
      · simp [h]
      · simp only [h, Bool.false_eq_true, if_false]
        omega

theorem haltsAt_zero_patience (vl : Nat → ℚ) (e : Nat) :
    haltsAt true 0 vl e = false := by
  cases himp : improves vl e with
  | true => simp [haltsAt, himp]
  | false =>
      cases e with
      | zero => simp [improves] at himp
      | succ e' =>
          have : countdown 0 vl (e' + 1) = countdown 0 vl e' - 1 := by
            simp [countdown, himp]
          have hle := countdown_nonpos vl e'
          simp only [haltsAt, himp, this]
          simp
          omega

theorem specLoop_zero_patience (vl : Nat → ℚ) :
    ∀ k e, specLoop true 0 vl k e = (k, false) := by
  intro k
  induction k with
  | zero => intro e; simp [specLoop]
  | succ k ih =>
      intro e
      rw [specLoop_succ, haltsAt_zero_patience]
      simp [ih (e + 1)]

/-- C10: with early stopping enabled and configured patience `0`, the halt
check never fires: the countdown stays non-positive, and at every
non-improving epoch (the only point where the code tests it) it is at most
`-1`, never zero — so training runs all `n_epochs` epochs and the history has
exactly `n_epochs` records. -/
theorem c10_zero_patience_never_stops (n : Nat) (vl : Nat → ℚ) :
    (TrainerBase.train true 0 n vl).records.length = n ∧
    (TrainerBase.train true 0 n vl).stopped = false ∧
    (∀ e, countdown 0 vl e ≤ 0) ∧
    (∀ e, improves vl e = true ∨ countdown 0 vl e ≤ -1) := by
  have hr := (train_spec true 0 n vl).1
  have hs := (train_spec true 0 n vl).2.2.2.2
  rw [specLoop_zero_patience] at hr hs
  refine ⟨by rw [hr, epochRecords_length], by rw [hs], countdown_nonpos vl, ?_⟩
  intro e
  cases himp : improves vl e with
  | true => exact Or.inl rfl
  | false =>
      refine Or.inr ?_
      cases e with
      | zero => simp [improves] at himp
      | succ e' =>
          have : countdown 0 vl (e' + 1) = countdown 0 vl e' - 1 := by
            simp [countdown, himp]
          have hle := countdown_nonpos vl e'
          omega

/-! ### Best-checkpoint log: monotonicity lemmas for the base trainer -/

theorem strictSaves_getLast (vl : Nat → ℚ) :
    ∀ e, ((strictSaves vl e).getLast?).map Prod.snd = minUpTo vl e := by
  intro e
  induction e with
  | zero => simp [strictSaves, minUpTo]
  | succ e ih =>
      rw [strictSaves_succ, minUpTo_succ]
      cases h : ltInf (minUpTo vl e) (vl (e + 1)) with
      | true => simp
      | false => simpa using ih

theorem strictSaves_chain (vl : Nat → ℚ) :
    ∀ e, List.Chain' (fun a b : Nat × ℚ => b.2 < a.2) (strictSaves vl e) := by
  intro e
  induction e with
  | zero => simp [strictSaves]
  | succ e ih =>
      rw [strictSaves_succ]
      cases h : ltInf (minUpTo vl e) (vl (e + 1)) with
      | false => simpa using ih
      | true =>
          rw [List.chain'_append]
          refine ⟨ih, List.chain'_singleton _, ?_⟩
          intro x hx y hy
          have hlast := strictSaves_getLast vl e
          rw [hx] at hlast
          simp only [Option.map_some'] at hlast
          rw [← hlast] at h
          simp only [ltInf, decide_eq_true_eq] at h
          simp at hy
          subst hy
          simpa using h

/-! ### `Trainer.train_epoch` / `Trainer.valid_epoch` of `src/module/train.py` -/

/-- Division of a loss value by a positive natural count (`loss / w`,
`loss / tot_len`), written on exact rationals. -/
def divNat (q : ℚ) (k : Nat) : ℚ := mkRat q.num (q.den * k)

theorem divNat_eq (q : ℚ) (k : Nat) : divNat q k = q / (k : ℚ) := by
  rw [divNat, Rat.mkRat_eq_div]
  push_cast
  rw [← div_div, Rat.num_div_den]

/-- Python's `round(x, 3)` on exact rationals: scale by `1000`, round half to
even, scale back. -/
def pyRound3 (q : ℚ) : ℚ :=
  let n : Int := q.num * 1000
  let d : Int := (q.den : Int)
  let f : Int := n.fdiv d
  let r : Int := n.fmod d
  let i : Int :=
    if 2 * r < d then f
    else if d < 2 * r then f + 1
    else if f % 2 = 0 then f else f + 1
  mkRat i 1000

/-- The optimizer/scaler operations the text of `Trainer.train_epoch` names
(src/module/train.py lines 160-171): two scaled backward passes per batch
(lines 160-161), and at an accumulation boundary the block of lines 163-171:
unscale gradients, clip their global norm to `clip`, one optimizer step,
scaler update, zero gradients.  None of these operations is ever reached when
the real function runs: see `Trainer.train_epoch` below. -/
inductive TEvent
  | backward
  | unscale
  | clip
  | step
  | update
  | zero
deriving DecidableEq

/-- The boundary test of line 163: `(idx + 1) % self.iters_to_accumulate == 0`
for the 0-based batch index `idx`. -/
def accumBoundary (w idx : Nat) : Bool := (idx + 1) % w == 0

/-- The events the loop body's text prescribes for the batch at index `idx`
(src/module/train.py lines 152-171) — the schedule the claim describes.  The
real loop never emits them: line 155 raises `TypeError` first, and the
boundary block itself reads the unset attributes `self.optimizer` and
`self.model` (see `advTrainerAttrs`). -/
def batchEvents (w idx : Nat) : List TEvent :=
  [TEvent.backward, TEvent.backward] ++
    (if accumBoundary w idx then
      [TEvent.unscale, TEvent.clip, TEvent.step, TEvent.update, TEvent.zero]
    else [])

/-- The event trace the loop text prescribes for one `train_epoch` call over
`N` batches (never realized, see `Trainer.train_epoch`). -/
def trainEpochTrace (w N : Nat) : List TEvent :=
  (List.range N).flatMap (batchEvents w)

/-- The Python exceptions the adversarial trainer's code raises. -/
inductive PyError
  | typeError
  | nameError
  | attributeError
  | zeroDivisionError
deriving DecidableEq

/-- Parameters `Trainer.get_losses` declares besides the bound `self`
(src/module/train.py line 120: `input_ids, attention_mask, labels`). -/
def get_losses_paramCount : Nat := 3

/-- Positional arguments the calls at lines 155 and 193 pass besides the bound
`self`: `self.get_losses(self, input_ids, attention_mask, labels)`. -/
def get_losses_argCount : Nat := 4

/-- Every attribute the adversarial trainer would carry if its constructor ran
to completion: those `TrainerBase.__init__` assigns (src/module/train.py lines
12-24) and those `Trainer.__init__` assigns (lines 64-82).  Neither class ever
assigns `self.optimizer` or `self.model`, the attributes the boundary block of
lines 165-171 reads. -/
def advTrainerAttrs : List String :=
  ["src", "trg", "task", "clip", "device", "n_epochs", "vocab_size",
   "device_type", "scaler", "iters_to_accumulate", "ckpt", "record_path",
   "generator", "discriminator", "train_dataloader", "valid_dataloader",
   "record_keys", "criterion", "gen_optimizer", "dis_optimizer", "scheduler"]

/-- `Trainer.train_epoch` (src/module/train.py lines 145-178) as it actually
executes: the pair of the optimizer/scaler events that run and the exception
that aborts the call.  With at least one batch, the iteration reaches line
155, `self.get_losses(self, input_ids, attention_mask, labels)` — four
positional arguments to a bound method declared with three (line 120) — and
raises `TypeError` before any backward pass or optimizer step; with an empty
dataloader the loop body never runs and the division by `tot_len = 0` at line
176 raises `ZeroDivisionError`.  No path returns. -/
def Trainer.train_epoch (batches : List (ℚ × ℚ)) : List TEvent × Option PyError :=
  match batches with
  | [] => ([], some PyError.zeroDivisionError)
  | _ :: _ => ([], some PyError.typeError)

/-- `Trainer.valid_epoch` (src/module/train.py lines 182-200) as it actually
executes: line 193 repeats the five-argument `get_losses` call of line 155, so
the first batch raises `TypeError`; an empty dataloader raises
`ZeroDivisionError` at line 198. -/
def Trainer.valid_epoch (batches : List (ℚ × ℚ)) : Except PyError (ℚ × ℚ) :=
  match batches with
  | [] => Except.error PyError.zeroDivisionError
  | _ :: _ => Except.error PyError.typeError

/-- The value the aggregation-and-return code of lines 156-178 computes from
given per-batch loss pairs — what `train_epoch` would return if the line-155
call delivered the batch losses (it does not: see `Trainer.train_epoch`).  The
per-batch losses are divided by `iters_to_accumulate` (lines 157-158), the
divided values are accumulated (lines 173-174), and line 178 returns the
rounded generator average twice (`return gen_epoch_loss, gen_epoch_loss`); the
rounded discriminator average of line 177 is computed but not returned. -/
def train_epoch_returns (w : Nat) (batches : List (ℚ × ℚ)) : ℚ × ℚ :=
  let tot_len := batches.length
  let gsum := (batches.map (fun b => divNat b.1 w)).sum
  let dsum := (batches.map (fun b => divNat b.2 w)).sum
  let gen_epoch_loss := pyRound3 (divNat gsum tot_len)
  let dis_epoch_loss := pyRound3 (divNat dsum tot_len)
  (gen_epoch_loss, gen_epoch_loss)

/-- The value the aggregation-and-return code of lines 186-200 computes from
given per-batch loss pairs — what `valid_epoch` would return if the line-193
call delivered the batch losses: raw losses accumulated (lines 195-196), and
again the rounded generator average returned twice (line 200). -/
def valid_epoch_returns (batches : List (ℚ × ℚ)) : ℚ × ℚ :=
  let tot_len := batches.length
  let gsum := (batches.map Prod.fst).sum
  let dsum := (batches.map Prod.snd).sum
  let gen_epoch_loss := pyRound3 (divNat gsum tot_len)
  let dis_epoch_loss := pyRound3 (divNat dsum tot_len)
  (gen_epoch_loss, gen_epoch_loss)

theorem trainEpochTrace_succ (w N : Nat) :
    trainEpochTrace w (N + 1) = trainEpochTrace w N ++ batchEvents w N := by
  simp [trainEpochTrace, List.range_succ]

theorem count_step_batchEvents (w idx : Nat) :
    (batchEvents w idx).count TEvent.step
      = if accumBoundary w idx then 1 else 0 := by
  cases h : accumBoundary w idx with
  | true => simp [batchEvents, h, List.count_cons]
  | false => simp [batchEvents, h, List.count_cons]

theorem step_mem_batchEvents (w idx : Nat) :
    TEvent.step ∈ batchEvents w idx ↔ (idx + 1) % w = 0 := by
  cases h : accumBoundary w idx with
  | true =>
      simp only [accumBoundary, beq_iff_eq] at h
      simp [batchEvents, accumBoundary, h]
  | false =>
      simp only [accumBoundary] at h
      simp only [beq_eq_false_iff_ne, ne_eq] at h
      simp [batchEvents, accumBoundary, h]

theorem trainEpochTrace_step_count (w : Nat) :
    ∀ N, (trainEpochTrace w N).count TEvent.step = N / w := by
  intro N
  induction N with
  | zero => simp [trainEpochTrace]
  | succ N ih =>
      rw [trainEpochTrace_succ, List.count_append, ih, count_step_batchEvents,
        Nat.succ_div]
      by_cases h : w ∣ N + 1
      · have hb : accumBoundary w N = true := by
          simp [accumBoundary, Nat.mod_eq_zero_of_dvd h]
        simp [hb, h]
      · have hb : accumBoundary w N = false := by
          simp only [accumBoundary, beq_eq_false_iff_ne, ne_eq]
          intro hmod
          exact h (Nat.dvd_of_mod_eq_zero hmod)
        simp [hb, h]

/-- C3, evaluation at the failing input: `train_epoch` performs ZERO optimizer
steps, not `⌊N / w⌋`: on every non-empty dataloader the first batch raises
`TypeError` at line 155 (`self.get_losses(self, …)` passes four positional
arguments to a three-parameter bound method) before any backward pass or
boundary block, and even with that call fixed the boundary block of lines
165-171 reads `self.optimizer` and `self.model`, attributes never assigned on
`Trainer` or its `TrainerBase`, so the step would raise `AttributeError`
instead of executing.  The boundary pattern in the loop text would schedule
`⌊N / w⌋` steps, so e.g. over two batches with `w = 1` the executed count `0`
differs from the claimed count `2`. -/
theorem c3_accumulation_steps_eval :
    (∀ (b : ℚ × ℚ) (bs : List (ℚ × ℚ)),
       Trainer.train_epoch (b :: bs) = ([], some PyError.typeError)) ∧
    (∀ (b : ℚ × ℚ) (bs : List (ℚ × ℚ)),
       (Trainer.train_epoch (b :: bs)).1.count TEvent.step = 0) ∧
    get_losses_argCount ≠ get_losses_paramCount ∧
    advTrainerAttrs.contains "optimizer" = false ∧
    advTrainerAttrs.contains "model" = false ∧
    (∀ w N, (trainEpochTrace w N).count TEvent.step = N / w) ∧
    (Trainer.train_epoch [((1 : ℚ), (1 : ℚ)), (1, 1)]).1.count TEvent.step
      ≠ [((1 : ℚ), (1 : ℚ)), (1, 1)].length / 1 := by
  refine ⟨fun b bs => rfl, fun b bs => rfl, by decide, by decide, by decide,
    fun w N => trainEpochTrace_step_count w N, by decide⟩

/-- C6, evaluation at the failing input: neither epoch pass can return the
claimed per-model averages — with any non-empty dataloader both abort with the
line-155/193 `TypeError` — and even the return computation the code spells out
(lines 173-178 and 195-200) yields the generator's average in both positions
(`return gen_epoch_loss, gen_epoch_loss`), discarding the discriminator's
computed average: on a single batch with generator loss `1` and discriminator
loss `2` it returns `(1, 1)` although the discriminator average is `2`.
Moreover `train_epoch` sums the losses already divided by the accumulation
window, so with `w = 2` and one batch of losses `(4, 4)` it returns `(2, 2)`
although the per-batch average is `4`. -/
theorem c6_epoch_loss_eval :
    (∀ (b : ℚ × ℚ) (bs : List (ℚ × ℚ)),
       Trainer.train_epoch (b :: bs) = ([], some PyError.typeError) ∧
       Trainer.valid_epoch (b :: bs) = Except.error PyError.typeError) ∧
    train_epoch_returns 1 [(1, 2)] = (1, 1) ∧
    valid_epoch_returns [(1, 2)] = (1, 1) ∧
    pyRound3 (divNat (([((1 : ℚ), (2 : ℚ))].map Prod.snd).sum) 1) = 2 ∧
    train_epoch_returns 2 [(4, 4)] = (2, 2) ∧
    pyRound3 (divNat (([((4 : ℚ), (4 : ℚ))].map Prod.fst).sum) 1) = 4 := by
  refine ⟨fun b bs => ⟨rfl, rfl⟩, ?_, ?_, ?_, ?_, ?_⟩ <;>
    simp only [train_epoch_returns, valid_epoch_returns, List.map_cons,
      List.map_nil, List.sum_cons, List.sum_nil, add_zero, List.length_cons,
      List.length_nil] <;>
    decide

/-! ### `Trainer.get_losses` of `src/module/train.py` (adversarial batch) -/

/-- Shape-level model of `torch.cat((samples, labels), dim=-1)` (line 127):
concatenation of two 2-D tensors of shape `(rows, cols)` along the LAST
dimension — it requires equal row counts and adds the column counts; the
batch (first) dimension is unchanged. -/
def catLastDim : Nat × Nat → Nat × Nat → Option (Nat × Nat) :=
  fun a b => if a.1 = b.1 then some (a.1, a.2 + b.2) else none

/-- Shape-level model of integer-array indexing `t[indices]` along the first
dimension (line 130): defined only when every index is below the row count. -/
def indexSelectRows : Nat × Nat → List Nat → Option (Nat × Nat) :=
  fun t idxs =>
    if idxs.all (fun i => decide (i < t.1)) then some (idxs.length, t.2) else none

/-- `dis_labels = indices[indices > batch_size]` (line 131): the entries of
`indices` that are strictly greater than `batch_size`. -/
def disLabelsOf (indices : List Nat) (batch_size : Nat) : List Nat :=
  indices.filter (fun i => decide (batch_size < i))

/-- C4, evaluation at the failing input: with `batch_size = 4` and samples and
labels both of shape `(4, L)`, the `dim=-1` concatenation of line 127 yields
shape `(4, 2L)` — batch size `4`, not `8`; indexing it with any permutation of
`0..7` from `randperm(8)` (line 130) is out of bounds; and for every such
permutation the label vector `indices[indices > batch_size]` of line 131 has
`3` entries (the values `5, 6, 7`), not `4`. -/
theorem c4_discriminator_batch_eval (L : Nat) (perm : List Nat)
    (hperm : perm.Perm (List.range 8)) :
    catLastDim (4, L) (4, L) = some (4, L + L) ∧
    (disLabelsOf perm 4).length = 3 ∧
    indexSelectRows (4, L + L) perm = none := by
  refine ⟨by simp [catLastDim], ?_, ?_⟩
  · rw [disLabelsOf, ← List.countP_eq_length_filter,
      hperm.countP_eq (fun i => decide (4 < i))]
    decide
  · have h7 : (7 : Nat) ∈ perm := (hperm.mem_iff).mpr (by decide)
    have hall : perm.all (fun i => decide (i < 4)) = false := by
      cases hA : perm.all (fun i => decide (i < 4)) with
      | false => rfl
      | true =>
          have := List.all_eq_true.mp hA 7 h7
          simp at this
    simp [indexSelectRows, hall]

/-- Witness for `c4_discriminator_batch_eval` at `L = 5` and the identity
permutation. -/
theorem c4_discriminator_batch_eval_witness :
    (List.range 8).Perm (List.range 8) ∧
    (catLastDim (4, 5) (4, 5) = some (4, 5 + 5) ∧
     (disLabelsOf (List.range 8) 4).length = 3 ∧
     indexSelectRows (4, 5 + 5) (List.range 8) = none) :=
  ⟨List.Perm.refl _, c4_discriminator_batch_eval 5 (List.range 8) (List.Perm.refl _)⟩

/-- The pair returned by `Trainer.get_losses` (src/module/train.py line 142):
`return gen_loss + dis_logit, dis_loss` — the discriminator's raw output
`dis_logit` is summed into the first, generator-loss, component. -/
def get_losses_return (gen_loss dis_logit dis_loss : ℚ) : ℚ × ℚ :=
  (gen_loss + dis_logit, dis_loss)

/-- C5, evaluation: the generator-loss value `get_losses` returns is
`gen_loss + dis_logit`, not the generator's own supervised loss alone; with
`gen_loss = 1` and a discriminator output of `1/2` the returned value differs
from `gen_loss`. -/
theorem c5_generator_loss_eval :
    (∀ g l d : ℚ, (get_losses_return g l d).1 = g + l) ∧
    (get_losses_return 1 (mkRat 1 2) (mkRat 7 10)).1 ≠ 1 := by
  constructor
  · intro g l d
    rfl
  · show (1 : ℚ) + mkRat 1 2 ≠ 1
    rw [Rat.mkRat_eq_div]
    norm_num

/-! ### Name resolution at the scheduler call of `src/module/train.py` -/

/-- The local names bound in the body of the adversarial `Trainer.train`
(src/module/train.py lines 86-117): the parameter and every name the function
assigns (loop variable, per-epoch locals, the file handle). -/
def advTrainLocalNames : List String :=
  ["self", "gen_best_loss", "dis_best_loss", "records", "epoch", "start_time",
   "record_vals", "record_dict", "gen_curr_loss", "dis_curr_loss", "fp"]

/-- The module-level names of `src/module/train.py` (imports and classes)
together with the Python builtins its code references. -/
def moduleTrainGlobalNames : List String :=
  ["time", "math", "json", "torch", "nn", "amp", "optim", "TrainerBase",
   "Trainer", "float", "len", "zip", "open", "print", "enumerate", "round",
   "super", "range"]

/-- Whether a bare identifier resolves at line 102
(`self.scheduler.step(gen_loss)`) of the adversarial `Trainer.train`. -/
def nameInScopeAtSchedulerCall (n : String) : Bool :=
  advTrainLocalNames.contains n || moduleTrainGlobalNames.contains n

/-- C7, evaluation at the failing point: the argument `gen_loss` of the
scheduler call at line 102 of src/module/train.py does not resolve (the
per-epoch locals are `gen_curr_loss` and `dis_curr_loss`), so the call raises
`NameError` on the first epoch instead of passing the generator's validation
loss.  In the base trainer (src/train/trainer.py line 89) the scheduler does
receive exactly each epoch's validation loss, once per recorded epoch. -/
theorem c7_scheduler_arg_eval :
    (nameInScopeAtSchedulerCall "gen_loss" = false ∧
     nameInScopeAtSchedulerCall "gen_curr_loss" = true ∧
     nameInScopeAtSchedulerCall "dis_curr_loss" = true) ∧
    (∀ (es : Bool) (p0 : Int) (n : Nat) (vl : Nat → ℚ),
       (TrainerBase.train es p0 n vl).schedCalls
         = ((TrainerBase.train es p0 n vl).records).map Prod.snd) := by
  refine ⟨⟨by decide, by decide, by decide⟩, ?_⟩
  intro es p0 n vl
  rw [(train_spec es p0 n vl).1, (train_spec es p0 n vl).2.1]

/-! ### `Trainer.__init__` of `src/train/trainer.py` -/

/-- The ways `Trainer.__init__` can fail. -/
inductive InitError
  | assertionError
  | typeError
deriving DecidableEq

/-- `Trainer.__init__` (src/train/trainer.py lines 120-131): when
`config.train_type` is `'alternate'` or `'generative'` it first asserts that a
tokenizer was supplied (line 126; `AssertionError` when `tokenizer is None`);
otherwise — and after a passing assert — it calls
`self._get_trainer_instance(config, model, train_dataloader,
valid_dataloader, tokenizer)` (lines 129-131), which passes five positional
arguments to a method declared with four (lines 134-136) and therefore raises
`TypeError` for every `train_type`. -/
def Trainer.init (train_type : String) (tokenizer : Option Unit) :
    Except InitError Unit :=
  if (train_type = "alternate" ∨ train_type = "generative") ∧ tokenizer = none then
    Except.error InitError.assertionError
  else
    Except.error InitError.typeError

/-- C9: construction fails with the missing-tokenizer assertion exactly when
the configured strategy is `'alternate'` or `'generative'` and no tokenizer is
supplied; with a tokenizer supplied, or for the strategies that do not require
one, construction never fails for that reason. -/
theorem c9_tokenizer_requirement (train_type : String) (tokenizer : Option Unit) :
    Trainer.init train_type tokenizer = Except.error InitError.assertionError
      ↔ ((train_type = "alternate" ∨ train_type = "generative") ∧
          tokenizer = none) := by
  by_cases h : (train_type = "alternate" ∨ train_type = "generative") ∧ tokenizer = none
  · simp [Trainer.init, h]
  · simp [Trainer.init, h]

/-- Witness for `c8_history_length`'s conditional conjuncts: with
`n_epochs = 4`, `patience = 2` and worsening losses the stop fires at epoch 3,
the history is strictly shorter than `n_epochs` and the stop flag is set; with
early stopping disabled the same run yields all 4 records. -/
theorem c8_history_length_witness :
    (TrainerBase.train true 2 4 (fun e => (e : ℚ))).records.length < 4 ∧
    (TrainerBase.train true 2 4 (fun e => (e : ℚ))).stopped = true ∧
    (TrainerBase.train false 2 4 (fun e => (e : ℚ))).records.length = 4 :=
  ⟨by decide,
   (c8_history_length true 2 4 (fun e => (e : ℚ))).1.2.2.1 (by decide),
   (c8_history_length false 2 4 (fun e => (e : ℚ))).1.2.2.2 rfl⟩

/-! ### The adversarial checkpoint path of `src/module/train.py` (C2) -/

/-- The keyword parameters `nn.BCELoss.__init__` accepts
(`weight`, `size_average`, `reduce`, `reduction`). -/
def BCELossParams : List String := ["weight", "size_average", "reduce", "reduction"]

/-- The keyword arguments line 75 of src/module/train.py passes to
`nn.BCELoss`. -/
def criterionKwargs : List String := ["ignore_index", "label_smoothing"]

/-- The adversarial `Trainer.__init__` (src/module/train.py lines 61-82):
line 75 calls `nn.BCELoss(ignore_index=…, label_smoothing=…)` with keyword
arguments `BCELoss` does not accept, raising `TypeError`; were they accepted,
line 78 (`optim.AdamW(params=…, lr=lr)`) would raise `NameError`, `lr` being
unbound.  Construction therefore always fails before any training. -/
def Trainer.adversarialInit : Except PyError Unit :=
  if criterionKwargs.all (fun k => BCELossParams.contains k) then
    Except.error PyError.nameError
  else
    Except.error PyError.typeError

/-- `self.record_keys` of the adversarial trainer
(src/module/train.py lines 70-72). -/
def advRecordKeys : List String :=
  ["epoch", "gen_train_loss", "gen_valid_loss", "dis_train_loss",
   "dis_valid_loss", "gen_lr", "dis_lr", "train_time"]

/-- The provenance of each entry of `record_vals` (line 91): the epoch index,
the two components of `train_epoch()`, the two components of `valid_epoch()`,
the two learning rates and the formatted wall time, in that order. -/
inductive RVal
  | epochIdx
  | trainEpochFst
  | trainEpochSnd
  | validEpochFst
  | validEpochSnd
  | genLr
  | disLr
  | timeStr
deriving DecidableEq

/-- `record_vals` (line 91) by provenance. -/
def advRecordVals : List RVal :=
  [RVal.epochIdx, RVal.trainEpochFst, RVal.trainEpochSnd, RVal.validEpochFst,
   RVal.validEpochSnd, RVal.genLr, RVal.disLr, RVal.timeStr]

/-- `record_dict = {k: v for k, v in zip(record_keys, record_vals)}`
(line 95). -/
def advRecordDict : List (String × RVal) := advRecordKeys.zip advRecordVals

/-- C2, evaluation at the failing input.  The base trainer
(src/train/trainer.py lines 91-97) satisfies the claim: the best score is
overwritten, and a checkpoint written, exactly when the validation loss is
strictly below the lowest loss observed so far (logged scores strictly
decreasing, stored best = running minimum).  The adversarial trainer
(src/module/train.py lines 105-113) cannot exhibit the claimed bookkeeping at
all: construction raises `TypeError` at line 75 (so no run exists); even
bypassing construction, epoch 1 aborts inside `train_epoch()` (line 91 via the
line-155 `TypeError`) and then at line 102 (`gen_loss` unbound) before the
save blocks of lines 106-113, so no checkpoint is ever written; the
save-condition text at lines 106/111 is moreover non-strict
(`gen_best_loss >= gen_curr_loss`, true on ties), and the compared
`gen_curr_loss = record_dict['gen_valid_loss']` is, through the
`record_keys`/`record_vals` zip, the second component of `train_epoch()` — a
training-loss slot — not the generator's validation loss
(`dis_valid_loss` likewise receives `valid_epoch()`'s second component). -/
theorem c2_best_score_eval (es : Bool) (p0 : Int) (n : Nat) (vl : Nat → ℚ) :
    ((TrainerBase.train es p0 n vl).saves
        = strictSaves vl ((TrainerBase.train es p0 n vl).records.length) ∧
     List.Chain' (fun a b : Nat × ℚ => b.2 < a.2) (TrainerBase.train es p0 n vl).saves ∧
     (TrainerBase.train es p0 n vl).best
        = minUpTo vl ((TrainerBase.train es p0 n vl).records.length)) ∧
    (Trainer.adversarialInit = Except.error PyError.typeError ∧
     criterionKwargs.all (fun k => BCELossParams.contains k) = false ∧
     (∀ (b : ℚ × ℚ) (bs : List (ℚ × ℚ)),
        Trainer.train_epoch (b :: bs) = ([], some PyError.typeError)) ∧
     nameInScopeAtSchedulerCall "gen_loss" = false ∧
     advRecordDict.lookup "gen_valid_loss" = some RVal.trainEpochSnd ∧
     advRecordDict.lookup "dis_valid_loss" = some RVal.validEpochSnd ∧
     leInf (some 1) 1 = true ∧ ¬((1 : ℚ) < 1)) := by
  have hb := train_spec es p0 n vl
  have hlen : (TrainerBase.train es p0 n vl).records.length
      = (specLoop es p0 vl n 1).1 := by
    rw [hb.1, epochRecords_length]
  refine ⟨⟨by rw [hlen]; exact hb.2.2.1, ?_, by rw [hlen]; exact hb.2.2.2.1⟩,
    rfl, by decide, fun b bs => rfl, by decide, by decide, by decide,
    by decide, by decide⟩
  rw [hb.2.2.1]
  exact strictSaves_chain vl _
